import Mathlib

/-
  Shallow embedding of the poker hand module (src/src/poker.rs) and proofs
  about its `new_hand`, `deal` and `play` operations.

  Modelling conventions:
  - Rust `usize` chip counts and pots become `Nat`.
  - Rust `Vec<T>` becomes `List T`; `Vec::drain(0..2)` consumed front-to-back
    becomes structural pattern matching on the head of the list.
  - `deal` uses `Vec::drain(0..2)`, which panics when fewer than two cards
    remain; the embedding returns `Option Hand`, with `none` standing for
    that panic.  `play` in the source is total (it returns `Hand` and never
    an error value), so its embedding is a total function.
-/

namespace Poker

inductive Suit
  | Diamond
  | Heart
  | Club
  | Spade
deriving DecidableEq

inductive Rank
  | Ace
  | One
  | Two
  | Three
  | Four
  | Five
  | Six
  | Seven
  | Eight
  | Nine
  | Ten
  | Jack
  | Queen
  | King
deriving DecidableEq

structure Card where
  suit : Suit
  rank : Rank
deriving DecidableEq

abbrev Deck := List Card

structure Player where
  name : String
  chips : Nat
deriving DecidableEq

inductive PlayerMove
  | Fold
  | Check
  | Bet (amount : Nat)
  | Raise (amount : Nat)
deriving DecidableEq

structure HoleCards where
  first : Card
  second : Card
deriving DecidableEq

inductive PlayerState
  | WaitingToBeDealt
  | Dealt (cards : HoleCards)
  | Active (cards : HoleCards)
  | Folded
deriving DecidableEq

structure Hand where
  players : List (Player × PlayerState)
  deck : Deck
  pot : Nat
deriving DecidableEq

/-- Embeds `new_hand` from the source: pairs every player with
`WaitingToBeDealt`, pot 0, deck as given. -/
def new_hand (players : List Player) (deck : Deck) : Hand :=
  { players := players.map (fun p => (p, PlayerState.WaitingToBeDealt))
    pot := 0
    deck := deck }

/-- Embeds the per-player loop inside `deal`: each player in order drains the
first two cards of the remaining deck and is set to `Dealt`.  `none` models
the Rust panic of `Vec::drain(0..2)` when fewer than two cards remain. -/
def dealPlayers :
    List (Player × PlayerState) → Deck → Option (List (Player × PlayerState) × Deck)
  | [], deck => some ([], deck)
  | p :: ps, c1 :: c2 :: rest =>
    match dealPlayers ps rest with
    | some (ps2, deck2) => some ((p.1, PlayerState.Dealt ⟨c1, c2⟩) :: ps2, deck2)
    | none => none
  | _ :: _, [] => none
  | _ :: _, [_] => none

/-- Embeds the `first_mut` fix-up inside `deal`: if the first player exists
and is `Dealt`, promote them to `Active`; otherwise leave the list alone. -/
def setFirstActive :
    List (Player × PlayerState) → List (Player × PlayerState)
  | (p, PlayerState.Dealt hc) :: rest => (p, PlayerState.Active hc) :: rest
  | ps => ps

/-- Embeds `deal` from the source. -/
def deal (hand : Hand) : Option Hand :=
  match dealPlayers hand.players hand.deck with
  | some (ps2, deck2) =>
    some { players := setFirstActive ps2, pot := hand.pot, deck := deck2 }
  | none => none

/-- Embeds `play` from the source.  Note the source checks nothing: `Bet` and
`Raise` share one match arm that only adds to the pot, `Check` returns the
hand unchanged, and `Fold` maps every player to `Folded`. -/
def play (hand : Hand) (mv : PlayerMove) : Hand :=
  match mv with
  | PlayerMove.Bet amount | PlayerMove.Raise amount =>
    { players := hand.players
      pot := hand.pot + amount
      deck := hand.deck }
  | PlayerMove.Check => hand
  | PlayerMove.Fold =>
    { players := hand.players.map (fun p => (p.1, PlayerState.Folded))
      pot := hand.pot
      deck := hand.deck }

/-- The two players of the source's test fixtures. -/
def will : Player := { name := "Will", chips := 10 }

/-- The second player of the source's test fixtures. -/
def jean : Player := { name := "Jean", chips := 2 }

/-- The `simple_deck` fixture of the source: four aces. -/
def simple_deck : Deck :=
  [ { suit := Suit.Heart, rank := Rank.Ace }
  , { suit := Suit.Diamond, rank := Rank.Ace }
  , { suit := Suit.Club, rank := Rank.Ace }
  , { suit := Suit.Spade, rank := Rank.Ace } ]

/-- Whether a player state is `Active`. -/
def isActive : PlayerState → Bool
  | PlayerState.Active _ => true
  | _ => false

/-- Whether a player state is `Folded`. -/
def isFolded : PlayerState → Bool
  | PlayerState.Folded => true
  | _ => false

/-- Number of players of a hand in the `Active` state. -/
def countActive (h : Hand) : Nat :=
  (h.players.filter (fun pe => isActive pe.2)).length

/-- Number of players of a hand not in the `Folded` state. -/
def countNonFolded (h : Hand) : Nat :=
  (h.players.filter (fun pe => !isFolded pe.2)).length

/-- `setFirstActive` keeps the number of players. -/
theorem setFirstActive_length (ps : List (Player × PlayerState)) :
    (setFirstActive ps).length = ps.length := by
  match ps with
  | [] => rfl
  | (p, st) :: rest => cases st <;> rfl

/-- `setFirstActive` only touches the head entry. -/
theorem setFirstActive_getElem_succ (ps : List (Player × PlayerState)) (j : Nat) :
    (setFirstActive ps)[j + 1]? = ps[j + 1]? := by
  match ps with
  | [] => rfl
  | (p, st) :: rest => cases st <;> simp [setFirstActive]

/-- On a head entry in the `Dealt` state, `setFirstActive` promotes it to
`Active` and leaves the tail alone. -/
theorem setFirstActive_head_dealt (p : Player) (hc : HoleCards)
    (rest : List (Player × PlayerState)) :
    setFirstActive ((p, PlayerState.Dealt hc) :: rest) =
      (p, PlayerState.Active hc) :: rest := rfl

/-- The dealing loop, given at least two cards per player, succeeds, hands
player `i` the cards at deck positions `2i` and `2i+1`, marks everyone
`Dealt`, and leaves the deck with its first `2n` cards removed. -/
theorem dealPlayers_spec (ps : List (Player × PlayerState)) (deck : Deck)
    (h : 2 * ps.length ≤ deck.length) :
    ∃ out : List (Player × PlayerState),
      dealPlayers ps deck = some (out, deck.drop (2 * ps.length)) ∧
      out.length = ps.length ∧
      ∀ i, i < ps.length →
        ∃ p c1 c2,
          ps[i]? = some p ∧ deck[2 * i]? = some c1 ∧
          deck[2 * i + 1]? = some c2 ∧
          out[i]? = some (p.1, PlayerState.Dealt ⟨c1, c2⟩) := by
  induction ps generalizing deck with
  | nil =>
    exact ⟨[], rfl, rfl, fun i hi => absurd hi (Nat.not_lt_zero i)⟩
  | cons p ps ih =>
    match deck with
    | [] =>
      simp only [List.length_cons, List.length_nil] at h
      omega
    | [c] =>
      simp only [List.length_cons, List.length_nil] at h
      omega
    | c1 :: c2 :: rest =>
      have hr : 2 * ps.length ≤ rest.length := by
        simp only [List.length_cons] at h
        omega
      obtain ⟨out, heq, hlen, hidx⟩ := ih rest hr
      have hdrop : (c1 :: c2 :: rest).drop (2 * (p :: ps).length) =
          rest.drop (2 * ps.length) := by
        simp only [List.length_cons]
        have h2 : 2 * (ps.length + 1) = 2 * ps.length + 1 + 1 := by ring
        rw [h2, List.drop_succ_cons, List.drop_succ_cons]
      refine ⟨(p.1, PlayerState.Dealt ⟨c1, c2⟩) :: out, ?_, ?_, ?_⟩
      · simp only [dealPlayers, heq, hdrop]
      · simp [hlen]
      · intro i hi
        match i with
        | 0 =>
          refine ⟨p, c1, c2, ?_, ?_, ?_, ?_⟩ <;> simp
        | j + 1 =>
          have hj : j < ps.length := by
            simp only [List.length_cons] at hi
            omega
          obtain ⟨q, d1, d2, hq, hd1, hd2, hout⟩ := hidx j hj
          refine ⟨q, d1, d2, ?_, ?_, ?_, ?_⟩
          · rw [List.getElem?_cons_succ]
            exact hq
          · have h2 : 2 * (j + 1) = 2 * j + 1 + 1 := by ring
            rw [h2, List.getElem?_cons_succ, List.getElem?_cons_succ]
            exact hd1
          · have h2 : 2 * (j + 1) + 1 = 2 * j + 1 + 1 + 1 := by ring
            rw [h2, List.getElem?_cons_succ, List.getElem?_cons_succ]
            exact hd2
          · rw [List.getElem?_cons_succ]
            exact hout

/-- C6: `new_hand` returns a hand with pot 0, with exactly the given deck, and
whose players are the given players in the given order, each with name and
chip stack unchanged and in state `WaitingToBeDealt`. -/
theorem new_hand_spec (players : List Player) (deck : Deck) :
    (new_hand players deck).pot = 0 ∧
    (new_hand players deck).deck = deck ∧
    (new_hand players deck).players =
      players.map (fun p => (p, PlayerState.WaitingToBeDealt)) :=
  ⟨rfl, rfl, rfl⟩

/-- Closed instance of `new_hand_spec` at the source's own test fixture. -/
theorem new_hand_spec_witness :
    (new_hand [will, jean] simple_deck).pot = 0 ∧
    (new_hand [will, jean] simple_deck).deck = simple_deck ∧
    (new_hand [will, jean] simple_deck).players =
      [will, jean].map (fun p => (p, PlayerState.WaitingToBeDealt)) :=
  new_hand_spec [will, jean] simple_deck

/-- C10: `Bet` and `Raise` share a single match arm in `play`, so for every
hand and amount the two moves produce identical hands. -/
theorem play_bet_raise_same (hand : Hand) (amount : Nat) :
    play hand (PlayerMove.Bet amount) = play hand (PlayerMove.Raise amount) :=
  rfl

/-- Closed instance of `play_bet_raise_same` at a concrete hand. -/
theorem play_bet_raise_same_witness :
    play (new_hand [will, jean] simple_deck) (PlayerMove.Bet 3) =
      play (new_hand [will, jean] simple_deck) (PlayerMove.Raise 3) :=
  play_bet_raise_same (new_hand [will, jean] simple_deck) 3

/-- C8: the pot never decreases, for every hand and every operation: `play`
with any move keeps or grows the pot (the only arm touching it adds a `Nat`),
and whenever `deal` produces a hand at all, that hand carries the pot over
unchanged.  The pot is a `Nat` embedding the Rust `usize`, hence non-negative
by construction. -/
theorem pot_monotone (hand : Hand) (mv : PlayerMove) :
    hand.pot ≤ (play hand mv).pot ∧
    (deal hand).elim True (fun h2 => hand.pot ≤ h2.pot) := by
  constructor
  · cases mv <;> simp [play]
  · cases hdp : dealPlayers hand.players hand.deck with
    | none => simp [deal, hdp]
    | some pd => simp [deal, hdp]

/-- Closed instance of `pot_monotone` at a concrete hand and move. -/
theorem pot_monotone_witness :
    (new_hand [will, jean] simple_deck).pot ≤
      (play (new_hand [will, jean] simple_deck) (PlayerMove.Bet 3)).pot ∧
    (deal (new_hand [will, jean] simple_deck)).elim True
      (fun h2 => (new_hand [will, jean] simple_deck).pot ≤ h2.pot) :=
  pot_monotone (new_hand [will, jean] simple_deck) (PlayerMove.Bet 3)

/-- C1 (code divergence): after dealing the source's test fixture, where the
active player Will has 10 chips, `play` with `Bet 3` raises the pot to 3 but
leaves every chip stack untouched (10 and 2) — the source never deducts the
bet from the acting player's stack. -/
theorem bet_does_not_deduct_stack :
    (deal (new_hand [will, jean] simple_deck)).map
        (fun h1 =>
          ((play h1 (PlayerMove.Bet 3)).pot,
           (play h1 (PlayerMove.Bet 3)).players.map (fun pe => pe.1.chips))) =
      some (3, [10, 2]) := by
  decide

/-- C2 (code divergence): `play` is total and performs no legality checks: a
bet of 100 by the active player Will, who holds only 10 chips, still returns
a mutated hand with pot 100 rather than an error leaving the hand
unchanged. -/
theorem overbet_mutates_hand :
    (deal (new_hand [will, jean] simple_deck)).map
        (fun h1 => (play h1 (PlayerMove.Bet 100)).pot) =
      some 100 := by
  decide

/-- C3 (code divergence): `play` with `Fold` maps every player to `Folded`,
not just the acting one: after dealing the two-player fixture, both Will (the
active player) and Jean (who held `Dealt` hole cards) end up `Folded`. -/
theorem fold_folds_everyone :
    (deal (new_hand [will, jean] simple_deck)).map
        (fun h1 => (play h1 PlayerMove.Fold).players.map Prod.snd) =
      some [PlayerState.Folded, PlayerState.Folded] := by
  decide

/-- C4 (code divergence): dealing two players from a three-card deck hits the
`Vec::drain(0..2)` panic (modelled as `none`) on the second player instead of
returning an `InsufficientCardsError` value — no such error type exists in
the source. -/
theorem deal_short_deck_panics :
    deal (new_hand [will, jean] (simple_deck.take 3)) = none := by
  decide

/-- C7 (code divergence): in the reachable hand obtained by dealing the
two-player fixture and then playing `Fold`, zero players are `Active` and
zero players are non-folded, although the hand still has its two players —
so neither "exactly one `Active`" nor "zero `Active` with all but one
folded" holds. -/
theorem fold_breaks_active_invariant :
    (deal (new_hand [will, jean] simple_deck)).map
        (fun h1 =>
          (countActive (play h1 PlayerMove.Fold),
           countNonFolded (play h1 PlayerMove.Fold),
           (play h1 PlayerMove.Fold).players.length)) =
      some (0, 0, 2) := by
  decide

/-- C9 (code divergence): after dealing the two-player fixture (all street
bets are 0, so a check is legal), `play` with `Check` keeps the pot at 0 but
returns the hand unchanged: Will is still the unique `Active` player, so the
turn never advances to Jean. -/
theorem check_does_not_advance_turn :
    (deal (new_hand [will, jean] simple_deck)).map
        (fun h1 =>
          ((play h1 PlayerMove.Check).pot,
           (play h1 PlayerMove.Check).players.map (fun pe => isActive pe.2))) =
      some (0, [true, false]) := by
  decide

/-- C5: dealing a fresh hand whose deck holds at least `2N` cards for its `N`
players succeeds, hands player `i` (name and stack unchanged, in seating
order) the deck cards at positions `2i` and `2i+1`, leaves everyone `Dealt`
except the first player, who is `Active` with cards 0 and 1, and leaves the
deck equal to the old deck with its first `2N` cards removed. -/
theorem deal_spec (players : List Player) (deck : Deck)
    (h : 2 * players.length ≤ deck.length) :
    ∃ h2 : Hand, deal (new_hand players deck) = some h2 ∧
      h2.pot = 0 ∧
      h2.deck = deck.drop (2 * players.length) ∧
      h2.players.length = players.length ∧
      ∀ i, i < players.length →
        ∃ p c1 c2,
          players[i]? = some p ∧ deck[2 * i]? = some c1 ∧
          deck[2 * i + 1]? = some c2 ∧
          h2.players[i]? = some (p,
            if i = 0 then PlayerState.Active ⟨c1, c2⟩
            else PlayerState.Dealt ⟨c1, c2⟩) := by
  have hlen2 :
      2 * (players.map (fun p => (p, PlayerState.WaitingToBeDealt))).length ≤
        deck.length := by
    simpa using h
  obtain ⟨out, heq, hlen, hidx⟩ := dealPlayers_spec _ deck hlen2
  simp only [List.length_map] at heq hlen hidx
  refine ⟨{ players := setFirstActive out
            pot := 0
            deck := deck.drop (2 * players.length) }, ?_, rfl, rfl, ?_, ?_⟩
  · simp only [deal, new_hand, heq]
  · simp [setFirstActive_length, hlen]
  · intro i hi
    obtain ⟨q, c1, c2, hq, hc1, hc2, hout⟩ := hidx i hi
    have hmap :
        (players.map (fun p => (p, PlayerState.WaitingToBeDealt)))[i]? =
          (players[i]?).map (fun p => (p, PlayerState.WaitingToBeDealt)) :=
      List.getElem?_map _ _ _
    rw [hmap] at hq
    cases hpi : players[i]? with
    | none => rw [hpi] at hq; cases hq
    | some q0 =>
      rw [hpi] at hq
      have hq0 : q = (q0, PlayerState.WaitingToBeDealt) := by
        cases hq
        rfl
      subst hq0
      refine ⟨q0, c1, c2, rfl, hc1, hc2, ?_⟩
      match i with
      | 0 =>
        cases hout0 : out with
        | nil =>
          rw [hout0] at hout
          cases hout
        | cons o os =>
          rw [hout0] at hout
          simp only [List.getElem?_cons_zero] at hout
          cases hout
          simp [setFirstActive_head_dealt]
      | j + 1 =>
        rw [setFirstActive_getElem_succ, if_neg (by omega : ¬ j + 1 = 0)]
        exact hout

/-- Closed instance of `deal_spec` on the source's two-player, four-ace
fixture: the deck bound hypothesis holds and the full dealt-hand description
follows. -/
theorem deal_spec_witness :
    2 * ([will, jean] : List Player).length ≤ simple_deck.length ∧
    (∃ h2 : Hand, deal (new_hand [will, jean] simple_deck) = some h2 ∧
      h2.pot = 0 ∧
      h2.deck = simple_deck.drop (2 * ([will, jean] : List Player).length) ∧
      h2.players.length = ([will, jean] : List Player).length ∧
      ∀ i, i < ([will, jean] : List Player).length →
        ∃ p c1 c2,
          ([will, jean] : List Player)[i]? = some p ∧
          simple_deck[2 * i]? = some c1 ∧
          simple_deck[2 * i + 1]? = some c2 ∧
          h2.players[i]? = some (p,
            if i = 0 then PlayerState.Active ⟨c1, c2⟩
            else PlayerState.Dealt ⟨c1, c2⟩)) :=
  ⟨by decide, deal_spec [will, jean] simple_deck (by decide)⟩

end Poker
